import Mathlib

/-!
Shallow embedding of pkg/app/http.go of the go-app repository, together with
a model of the pre-render cache subsystem described by the specification.
Bytes are modelled as lists of naturals, instants and durations as naturals
(in seconds), and the Go zero value of time.Time as the instant 0.
-/

/-- Modelled from the spec: the cache entry shape consumed and produced by
the pre-render cache (the PreRenderedItem type of the repository is not
among the sources at hand): a request path, a content type, an optional
content encoding (empty string when absent) and the response body. -/
structure PreRenderedItem where
  path : String
  contentType : String
  contentEncoding : String
  body : List Nat
deriving DecidableEq

/-- Modelled from the spec: the size of an entry is the length of its body. -/
def PreRenderedItem.len (i : PreRenderedItem) : Nat := i.body.length

/-- Modelled from the spec: a live cache entry, the stored item together with
its expiration bookkeeping; none means the entry never expires by time. -/
structure CacheEntry where
  item : PreRenderedItem
  expiresAt : Option Nat
deriving DecidableEq

/-- Modelled from the spec: the state of the bounded LRU pre-render cache,
the configured byte capacity, the configured TTL (0 being the explicit
no-expiration value) and the live entries ordered from most recently used
to least recently used. -/
structure LRUCache where
  maxBytes : Nat
  ttl : Nat
  entries : List CacheEntry
deriving DecidableEq

/-- Aggregate size of a list of live entries. -/
def totalSize (es : List CacheEntry) : Nat := (es.map (fun e => e.item.len)).sum

/-- Modelled from the spec: NewPreRenderLRUCache (not among the sources at
hand) creates an empty LRU pre-render cache with the given capacity in bytes
and entry TTL. -/
def NewPreRenderLRUCache (maxBytes ttl : Nat) : LRUCache := ⟨maxBytes, ttl, []⟩

/-- Modelled from the spec: evict least-recently-used entries (the back of
the recency list) while the current size plus the incoming entry size
exceeds the capacity and at least one entry remains. -/
def evictLRU (cap need : Nat) (es : List CacheEntry) : List CacheEntry :=
  if h : cap < totalSize es + need ∧ es ≠ [] then
    evictLRU cap need es.dropLast
  else es
termination_by es.length
decreasing_by
  simp only [List.length_dropLast]
  exact Nat.sub_lt (List.length_pos.mpr h.2) Nat.one_pos

/-- Modelled from the spec: an entry with no expiration instant never
expires; otherwise it is expired once its expiration instant lies strictly
before the current instant (mirroring httpResource.IsExpired from the
source). -/
def CacheEntry.isExpired (e : CacheEntry) (now : Nat) : Bool :=
  match e.expiresAt with
  | none => false
  | some t => decide (t < now)

/-- Modelled from the spec: Set inserts or replaces the entry at item.path.
An item whose size alone exceeds the capacity is rejected and the cache is
left unchanged, the returned flag reporting that the item was not cached.
Otherwise the old entry for the key is removed, least-recently-used entries
are evicted until the item fits, and the item is stored most recently used
with its expiration reset to now plus the TTL (never, when the TTL is the
explicit no-expiration value 0). -/
def LRUCache.set (c : LRUCache) (now : Nat) (i : PreRenderedItem) : LRUCache × Bool :=
  if c.maxBytes < i.len then (c, false)
  else
    let remaining := c.entries.filter (fun e => !(e.item.path == i.path))
    let fitted := evictLRU c.maxBytes i.len remaining
    ({ c with
        entries :=
          { item := i, expiresAt := if c.ttl = 0 then none else some (now + c.ttl) } :: fitted },
      true)

/-- Modelled from the spec: Get returns the entry at the key when present
and not expired, marking it most recently used; an expired entry is removed
lazily and reported as a miss. -/
def LRUCache.get (c : LRUCache) (now : Nat) (key : String) : LRUCache × Option PreRenderedItem :=
  match c.entries.find? (fun e => e.item.path == key) with
  | none => (c, none)
  | some e =>
    if e.isExpired now then
      ({ c with entries := c.entries.filter (fun x => !(x.item.path == key)) }, none)
    else
      ({ c with entries := e :: c.entries.filter (fun x => !(x.item.path == key)) }, some e.item)

/-- State reached from a cache by a finite sequence of Set calls, each given
as an instant together with the inserted item. -/
def applySets (c : LRUCache) (ops : List (Nat × PreRenderedItem)) : LRUCache :=
  ops.foldl (fun st op => (st.set op.1 op.2).1) c

/-- The httpResource type of pkg/app/http.go; time.Time is modelled as a
natural instant whose zero value is 0. -/
structure httpResource where
  Path : String
  ContentType : String
  Body : List Nat
  ExpireAt : Nat
deriving DecidableEq

/-- httpResource.Len returns len(r.Body). -/
def httpResource.Len (r : httpResource) : Nat := r.Body.length

/-- httpResource.IsExpired reports whether ExpireAt is not the zero value
and lies strictly before the current instant (time.Now is passed explicitly
as now). -/
def httpResource.IsExpired (r : httpResource) (now : Nat) : Bool :=
  decide (r.ExpireAt ≠ 0) && decide (r.ExpireAt < now)

/-- The defaultPreRenderCacheSize constant of pkg/app/http.go. -/
def defaultPreRenderCacheSize : Nat := 8000000

/-- The defaultPreRenderCacheTTL constant of pkg/app/http.go, time.Hour
times 24, expressed in seconds. -/
def defaultPreRenderCacheTTL : Nat := 24 * 60 * 60

/-- Handler.initPreRenderedResources from pkg/app/http.go: the five
pre-rendered pwa resources stored at startup (their bodies are the opaque
outputs of the asset builders, passed here as parameters), and the
pre-render cache, set to the default LRU cache exactly when the caller
supplied none. -/
def initPreRenderedResources (wasmExecJS appJS appWorkerJS manifestJSON appCSS : List Nat)
    (preRenderCache : Option LRUCache) : List PreRenderedItem × LRUCache :=
  ([{ path := "/wasm_exec.js", contentType := "application/javascript",
      contentEncoding := "", body := wasmExecJS },
    { path := "/app.js", contentType := "application/javascript",
      contentEncoding := "", body := appJS },
    { path := "/app-worker.js", contentType := "application/javascript",
      contentEncoding := "", body := appWorkerJS },
    { path := "/manifest.webmanifest", contentType := "application/manifest+json",
      contentEncoding := "", body := manifestJSON },
    { path := "/app.css", contentType := "text/css",
      contentEncoding := "", body := appCSS }],
   match preRenderCache with
   | none => NewPreRenderLRUCache defaultPreRenderCacheSize defaultPreRenderCacheTTL
   | some c => c)

theorem totalSize_nil : totalSize [] = 0 := rfl

theorem totalSize_cons (e : CacheEntry) (es : List CacheEntry) :
    totalSize (e :: es) = e.item.len + totalSize es := by
  simp [totalSize]

theorem evictLRU_fits_aux (cap need : Nat) (h : need ≤ cap) :
    ∀ n es, List.length es ≤ n → totalSize (evictLRU cap need es) + need ≤ cap := by
  intro n
  induction n with
  | zero =>
    intro es hle
    have hnil : es = [] := List.length_eq_zero.mp (Nat.le_zero.mp hle)
    subst hnil
    rw [evictLRU]
    simp [totalSize_nil, h]
  | succ n ih =>
    intro es hle
    rw [evictLRU]
    split
    · next hcond =>
      apply ih es.dropLast
      have hpos : 0 < es.length := List.length_pos.mpr hcond.2
      simp only [List.length_dropLast]
      omega
    · next hcond =>
      by_cases hA : cap < totalSize es + need
      · have hB : es = [] := by
          by_contra hne
          exact hcond ⟨hA, hne⟩
        subst hB
        simp [totalSize_nil]
        omega
      · omega

theorem evictLRU_fits (cap need : Nat) (h : need ≤ cap) (es : List CacheEntry) :
    totalSize (evictLRU cap need es) + need ≤ cap :=
  evictLRU_fits_aux cap need h es.length es (Nat.le_refl _)

theorem set_maxBytes (c : LRUCache) (now : Nat) (i : PreRenderedItem) :
    ((c.set now i).1).maxBytes = c.maxBytes := by
  by_cases hlt : c.maxBytes < i.len <;> simp [LRUCache.set, hlt]

theorem set_totalSize_le (c : LRUCache) (now : Nat) (i : PreRenderedItem)
    (hc : totalSize c.entries ≤ c.maxBytes) :
    totalSize ((c.set now i).1).entries ≤ c.maxBytes := by
  by_cases hlt : c.maxBytes < i.len
  · simpa [LRUCache.set, hlt] using hc
  · have h1 : i.len ≤ c.maxBytes := Nat.not_lt.mp hlt
    have h2 := evictLRU_fits c.maxBytes i.len h1
        (c.entries.filter (fun e => !(e.item.path == i.path)))
    simp only [LRUCache.set, hlt, if_false, totalSize_cons]
    omega

theorem applySets_invariant (ops : List (Nat × PreRenderedItem)) :
    ∀ c : LRUCache, totalSize c.entries ≤ c.maxBytes →
      (applySets c ops).maxBytes = c.maxBytes ∧
      totalSize (applySets c ops).entries ≤ c.maxBytes := by
  induction ops with
  | nil => exact fun c hc => ⟨rfl, hc⟩
  | cons op rest ih =>
    intro c hc
    have h1 := set_totalSize_le c op.1 op.2 hc
    have h2 := set_maxBytes c op.1 op.2
    have hstep : applySets c (op :: rest) = applySets ((c.set op.1 op.2).1) rest := rfl
    rcases ih ((c.set op.1 op.2).1) (by rw [h2]; exact h1) with ⟨ha, hb⟩
    rw [hstep]
    exact ⟨by rw [ha, h2], by rw [h2] at hb; exact hb⟩

/-- C1: for every configured capacity maxBytes and every finite sequence of
Set calls on the pre-render LRU cache, after each call completes the sum of
the sizes (body lengths) of all entries stored in the cache is at most
maxBytes (every prefix of a sequence being itself a sequence of Set calls,
the bound after each call is the statement at that prefix). -/
theorem set_sequence_totalSize_le_maxBytes (m t : Nat) (ops : List (Nat × PreRenderedItem)) :
    totalSize (applySets (NewPreRenderLRUCache m t) ops).entries ≤ m := by
  have h := applySets_invariant ops (NewPreRenderLRUCache m t)
      (by simp [NewPreRenderLRUCache, totalSize_nil])
  exact h.2

/-- Witness for C1 at a concrete capacity and sequence of Set calls. -/
theorem set_sequence_totalSize_le_maxBytes_wit :
    totalSize
      (applySets (NewPreRenderLRUCache 100 10)
        [(0, ⟨"/a", "text/html", "", List.replicate 60 0⟩),
         (1, ⟨"/b", "text/html", "", List.replicate 50 0⟩),
         (2, ⟨"/c", "text/html", "", List.replicate 40 0⟩)]).entries ≤ 100 :=
  set_sequence_totalSize_le_maxBytes 100 10
    [(0, ⟨"/a", "text/html", "", List.replicate 60 0⟩),
     (1, ⟨"/b", "text/html", "", List.replicate 50 0⟩),
     (2, ⟨"/c", "text/html", "", List.replicate 40 0⟩)]

/-- C2: for every cache state and every item whose size alone exceeds the
configured maxBytes, Set leaves the cache state completely unchanged and
returns, merely signaling through its flag that the item was not cached. -/
theorem set_oversized_is_noop (c : LRUCache) (now : Nat) (i : PreRenderedItem)
    (h : c.maxBytes < i.len) :
    (c.set now i).1 = c ∧ (c.set now i).2 = false := by
  simp [LRUCache.set, h]

/-- Witness for C2: a two-byte-capacity cache already holding an entry is
untouched by a Set of a three-byte item. -/
theorem set_oversized_is_noop_wit :
    ((⟨2, 0, [⟨⟨"/b", "text/css", "", [7]⟩, none⟩]⟩ : LRUCache).set 5
        ⟨"/a", "text/html", "", [1, 2, 3]⟩).1 =
      (⟨2, 0, [⟨⟨"/b", "text/css", "", [7]⟩, none⟩]⟩ : LRUCache) ∧
    ((⟨2, 0, [⟨⟨"/b", "text/css", "", [7]⟩, none⟩]⟩ : LRUCache).set 5
        ⟨"/a", "text/html", "", [1, 2, 3]⟩).2 = false :=
  set_oversized_is_noop _ 5 _ (by decide)

/-- C3: a Get at a key whose stored entry is already expired reports a miss,
and the expired entry is removed from the cache state, so that its size no
longer counts in capacity accounting for subsequent Set calls. -/
theorem get_expired_misses_and_reclaims (c : LRUCache) (now : Nat) (key : String)
    (e : CacheEntry)
    (hfind : c.entries.find? (fun x => x.item.path == key) = some e)
    (hexp : e.isExpired now = true) :
    (c.get now key).2 = none ∧
    (c.get now key).1.entries = c.entries.filter (fun x => !(x.item.path == key)) ∧
    ∀ x ∈ (c.get now key).1.entries, x.item.path ≠ key := by
  refine ⟨?_, ?_, ?_⟩
  · simp [LRUCache.get, hfind, hexp]
  · simp [LRUCache.get, hfind, hexp]
  · intro x hx
    simp only [LRUCache.get, hfind, hexp, if_true] at hx
    have hmem := List.mem_filter.mp hx
    simpa using hmem.2

/-- Witness for C3: at instant 5, a lookup of an entry that expired at
instant 3 misses and leaves the cache empty. -/
theorem get_expired_misses_and_reclaims_wit :
    ((⟨100, 10, [⟨⟨"/x", "text/html", "", [1, 2]⟩, some 3⟩]⟩ : LRUCache).get 5 "/x").2 = none ∧
    ((⟨100, 10, [⟨⟨"/x", "text/html", "", [1, 2]⟩, some 3⟩]⟩ : LRUCache).get 5 "/x").1.entries =
      ([⟨⟨"/x", "text/html", "", [1, 2]⟩, some 3⟩] : List CacheEntry).filter
        (fun x => !(x.item.path == "/x")) ∧
    ∀ x ∈ ((⟨100, 10, [⟨⟨"/x", "text/html", "", [1, 2]⟩, some 3⟩]⟩ : LRUCache).get
        5 "/x").1.entries, x.item.path ≠ "/x" :=
  get_expired_misses_and_reclaims _ 5 "/x" ⟨⟨"/x", "text/html", "", [1, 2]⟩, some 3⟩
    (by decide) (by decide)

/-- C4: for every httpResource and every observation instant, IsExpired
holds exactly when ExpireAt is not the zero value and lies strictly before
the instant; in particular a resource whose ExpireAt is the zero value is
never reported expired. -/
theorem isExpired_iff_nonzero_and_before (r : httpResource) (now : Nat) :
    (r.IsExpired now = true ↔ (r.ExpireAt ≠ 0 ∧ r.ExpireAt < now)) ∧
    (httpResource.IsExpired ⟨r.Path, r.ContentType, r.Body, 0⟩ now = false) := by
  constructor
  · simp [httpResource.IsExpired]
  · simp [httpResource.IsExpired]

/-- Witness for C4 at a concrete resource and instant. -/
theorem isExpired_iff_nonzero_and_before_wit :
    ((httpResource.IsExpired ⟨"/x", "text/html", [1], 3⟩ 5 = true ↔
        ((3 : Nat) ≠ 0 ∧ (3 : Nat) < 5)) ∧
      (httpResource.IsExpired ⟨"/x", "text/html", [1], 0⟩ 5 = false)) :=
  isExpired_iff_nonzero_and_before ⟨"/x", "text/html", [1], 3⟩ 5

/-- C5: when the handler initializes with a nil PreRenderCache, the cache is
set to an LRU pre-render cache of capacity exactly 8000000 bytes and TTL
exactly 24 hours, while a caller-supplied cache is left unchanged. -/
theorem init_default_preRenderCache (a b c d e : List Nat) :
    (initPreRenderedResources a b c d e none).2 =
      NewPreRenderLRUCache 8000000 (24 * 60 * 60) ∧
    (initPreRenderedResources a b c d e none).2.maxBytes = 8000000 ∧
    (initPreRenderedResources a b c d e none).2.ttl = 24 * 60 * 60 ∧
    ∀ cc : LRUCache, (initPreRenderedResources a b c d e (some cc)).2 = cc :=
  ⟨rfl, rfl, rfl, fun _ => rfl⟩

/-- Witness for C5 at concrete asset bodies. -/
theorem init_default_preRenderCache_wit :
    (initPreRenderedResources [1] [2] [3] [4] [5] none).2 =
      NewPreRenderLRUCache 8000000 (24 * 60 * 60) ∧
    (initPreRenderedResources [1] [2] [3] [4] [5] none).2.maxBytes = 8000000 ∧
    (initPreRenderedResources [1] [2] [3] [4] [5] none).2.ttl = 24 * 60 * 60 ∧
    ∀ cc : LRUCache, (initPreRenderedResources [1] [2] [3] [4] [5] (some cc)).2 = cc :=
  init_default_preRenderCache [1] [2] [3] [4] [5]

/-- strings.HasPrefix of the Go standard library: whether the string s
starts with the string pre, computed on the underlying character lists. -/
def strStartsWith (s pre : String) : Bool := pre.data.isPrefixOf s.data

/-- The ProxyResource type of the repository: a custom path mapped to a
static resource path. -/
structure ProxyResource where
  Path : String
  ResourcePath : String
deriving DecidableEq

/-- An HTTP response as observed through the response writer: the written
status code, the headers set on it (in the order they were set) and the
written body bytes. -/
structure Response where
  status : Nat
  headers : List (String × String)
  body : List Nat
deriving DecidableEq

/-- The subsystems Handler.ServeHTTP may consult while handling a request,
recorded in the order they are consulted: the startup pwa resource lookup,
the bounded pre-render cache (Get and Set), the proxy-resource table and the
page renderer. -/
inductive Event where
  | pwaGet (path : String)
  | cacheGet (path : String)
  | cacheSet (item : PreRenderedItem)
  | proxyLookup (path : String)
  | renderPage (path : String)
deriving DecidableEq

/-- An inbound request: its If-None-Match header and its URL path. -/
structure Request where
  ifNoneMatch : String
  path : String
deriving DecidableEq

/-- The collaborators and configuration Handler.ServeHTTP reads: the etag,
the startup pwa resources, the bounded pre-render cache contents (its Get,
as a pure lookup), the proxy-resource table, the proxied static resource
fetcher (content type, content encoding and body of a successful fetch, or
none when the fetch fails in any of the three ways the source handles), the
page renderer (the pre-rendered HTML body of a routed page, or none when no
route matches the path), whether the resource provider serves static files
itself, the file-serving handler and the application wasm path. -/
structure ServeEnv where
  etag : String
  pwa : List PreRenderedItem
  cacheContent : String → Option PreRenderedItem
  proxyTable : String → Option ProxyResource
  fetchStatic : ProxyResource → Option (String × String × List Nat)
  renderRoute : String → Option (List Nat)
  isServingStaticResources : Bool
  fileServe : String → Response
  appWASMPath : String

/-- Lookup in the startup pwa resource store, a plain search by path
(modelled from the spec: the small unbounded lookup populated at startup). -/
def pwaLookup (l : List PreRenderedItem) (p : String) : Option PreRenderedItem :=
  l.find? (fun it => it.path == p)

/-- The headers ServeHTTP sets on every response before anything else. -/
def baseHeaders (env : ServeEnv) : List (String × String) :=
  [("Cache-Control", "no-cache"), ("ETag", env.etag)]

/-- A response together with the headers ServeHTTP sets up front. -/
def withBase (env : ServeEnv) (r : Response) : Response :=
  { r with headers := baseHeaders env ++ r.headers }

/-- The 304 Not Modified response written when If-None-Match matches. -/
def notModifiedResponse (env : ServeEnv) : Response :=
  withBase env { status := 304, headers := [], body := [] }

/-- Handler.servePreRenderedItem from pkg/app/http.go: status 200, a
Content-Length header of the item length, a Content-Type header, and a
Content-Encoding header only when the item's content encoding is not
empty, with the item body as response body. -/
def servePreRenderedItem (r : PreRenderedItem) : Response :=
  { status := 200,
    headers :=
      [("Content-Length", toString r.len), ("Content-Type", r.contentType)] ++
        (if r.contentEncoding ≠ "" then [("Content-Encoding", r.contentEncoding)] else []),
    body := r.body }

/-- The item Handler.serveProxyResource builds from a successful fetch of a
proxied static resource: the proxy path, the fetched content type, content
encoding and body. -/
def proxyItem (resource : ProxyResource) (f : String × String × List Nat) : PreRenderedItem :=
  { path := resource.Path, contentType := f.1, contentEncoding := f.2.1, body := f.2.2 }

/-- Handler.serveProxyResource from pkg/app/http.go: fetch the static
resource; on success store the built item in the pre-render cache and serve
it; the source's three failure paths (request error, non-200 status, body
read error) are abstracted as a failed fetch answered with a non-200
status. -/
def serveProxyResource (env : ServeEnv) (resource : ProxyResource) :
    List Event × Response :=
  match env.fetchStatic resource with
  | none => ([], withBase env { status := 500, headers := [], body := [] })
  | some f =>
      ([Event.cacheSet (proxyItem resource f)],
        withBase env (servePreRenderedItem (proxyItem resource f)))

/-- Handler.servePage from pkg/app/http.go: when no route matches the
request path answer 404 Not Found, otherwise build the pre-rendered page
item (the request path, the rendered HTML body, content type text/html),
store it in the pre-render cache and serve it. -/
def servePage (env : ServeEnv) (reqPath : String) : List Event × Response :=
  match env.renderRoute reqPath with
  | none => ([Event.renderPage reqPath], withBase env { status := 404, headers := [], body := [] })
  | some b =>
      ([Event.renderPage reqPath,
        Event.cacheSet { path := reqPath, contentType := "text/html", contentEncoding := "", body := b }],
        withBase env (servePreRenderedItem
          { path := reqPath, contentType := "text/html", contentEncoding := "", body := b }))

/-- The path rewriting of the switch in Handler.ServeHTTP: /goapp.js is
served as /app.js and /manifest.json as /manifest.webmanifest (the wasm
cases of the same switch return early and are handled separately in
ServeHTTP below, which is equivalent since the four cases are disjoint). -/
def resolveReqPath (p : String) : String :=
  if p == "/goapp.js" then "/app.js"
  else if p == "/manifest.json" then "/manifest.webmanifest"
  else p

/-- Handler.ServeHTTP from pkg/app/http.go, as a function from the request
to the list of consulted subsystems and the written response: answer 304
when If-None-Match matches the etag; hand /web/ paths to the file handler
when the resource provider serves static files; serve the application wasm
for /app.wasm and /goapp.wasm; otherwise rewrite the path and consult, in
order, the startup pwa resources, the bounded pre-render cache, the
proxy-resource table and the page renderer. -/
def ServeHTTP (env : ServeEnv) (r : Request) : List Event × Response :=
  if r.ifNoneMatch == env.etag then
    ([], notModifiedResponse env)
  else if env.isServingStaticResources && strStartsWith r.path "/web/" then
    ([], withBase env (env.fileServe r.path))
  else if r.path == "/app.wasm" || r.path == "/goapp.wasm" then
    if env.isServingStaticResources then
      ([], withBase env (env.fileServe env.appWASMPath))
    else
      ([], withBase env { status := 404, headers := [], body := [] })
  else
    let path := resolveReqPath r.path
    match pwaLookup env.pwa path with
    | some res => ([Event.pwaGet path], withBase env (servePreRenderedItem res))
    | none =>
      match env.cacheContent path with
      | some res =>
          ([Event.pwaGet path, Event.cacheGet path], withBase env (servePreRenderedItem res))
      | none =>
        match env.proxyTable path with
        | some pr =>
            let s := serveProxyResource env pr
            ([Event.pwaGet path, Event.cacheGet path, Event.proxyLookup path] ++ s.1, s.2)
        | none =>
            let s := servePage env r.path
            ([Event.pwaGet path, Event.cacheGet path, Event.proxyLookup path] ++ s.1, s.2)

/-- The reserved paths of the switch in Handler.initProxyResources. -/
def reservedPaths : List String :=
  ["/wasm_exec.js", "/goapp.js", "/app.js", "/app-worker.js", "/manifest.json",
   "/manifest.webmanifest", "/app.css", "/app.wasm", "/goapp.wasm", "/"]

/-- Insertion into the proxy-resource table (a Go map assignment). -/
def insertProxy (m : String → Option ProxyResource) (k : String) (v : ProxyResource) :
    String → Option ProxyResource :=
  fun x => if x = k then some v else m x

/-- The loop of Handler.initProxyResources: reserved paths are skipped, and
an entry is kept only when its path starts with / and its resource path
starts with /web/. -/
def addProxyResources (m : String → Option ProxyResource) :
    List ProxyResource → (String → Option ProxyResource)
  | [] => m
  | r :: rest =>
      if r.Path ∈ reservedPaths then addProxyResources m rest
      else if strStartsWith r.Path "/" && strStartsWith r.ResourcePath "/web/" then
        addProxyResources (insertProxy m r.Path r) rest
      else addProxyResources m rest

/-- The default-filling step of Handler.initProxyResources: insert the
given entry at the key only when the table has no entry there yet. -/
def withDefault (t : String → Option ProxyResource) (k : String) (v : ProxyResource) :
    String → Option ProxyResource :=
  if t k = none then insertProxy t k v else t

/-- Handler.initProxyResources from pkg/app/http.go: filter the
user-supplied proxy resources through the loop above, then map /robots.txt,
/sitemap.xml and /ads.txt to their /web/ defaults when absent. -/
def initProxyResources (prs : List ProxyResource) : String → Option ProxyResource :=
  withDefault
    (withDefault
      (withDefault (addProxyResources (fun _ => none) prs)
        "/robots.txt" ⟨"/robots.txt", "/web/robots.txt"⟩)
      "/sitemap.xml" ⟨"/sitemap.xml", "/web/sitemap.xml"⟩)
    "/ads.txt" ⟨"/ads.txt", "/web/ads.txt"⟩


theorem pwaLookup_some_mem (a b c d e : List Nat) (oc : Option LRUCache) (p : String)
    (res : PreRenderedItem)
    (h : pwaLookup (initPreRenderedResources a b c d e oc).1 p = some res) :
    p = "/wasm_exec.js" ∨ p = "/app.js" ∨ p = "/app-worker.js" ∨
      p = "/manifest.webmanifest" ∨ p = "/app.css" := by
  by_cases h1 : ("/wasm_exec.js" : String) = p
  · exact Or.inl h1.symm
  by_cases h2 : ("/app.js" : String) = p
  · exact Or.inr (Or.inl h2.symm)
  by_cases h3 : ("/app-worker.js" : String) = p
  · exact Or.inr (Or.inr (Or.inl h3.symm))
  by_cases h4 : ("/manifest.webmanifest" : String) = p
  · exact Or.inr (Or.inr (Or.inr (Or.inl h4.symm)))
  by_cases h5 : ("/app.css" : String) = p
  · exact Or.inr (Or.inr (Or.inr (Or.inr h5.symm)))
  exfalso
  have b1 := beq_eq_false_iff_ne.mpr h1
  have b2 := beq_eq_false_iff_ne.mpr h2
  have b3 := beq_eq_false_iff_ne.mpr h3
  have b4 := beq_eq_false_iff_ne.mpr h4
  have b5 := beq_eq_false_iff_ne.mpr h5
  simp [pwaLookup, initPreRenderedResources, List.find?, b1, b2, b3, b4, b5] at h

theorem resolved_pwa_path_conditions (q : String)
    (h : resolveReqPath q = "/wasm_exec.js" ∨ resolveReqPath q = "/app.js" ∨
      resolveReqPath q = "/app-worker.js" ∨ resolveReqPath q = "/manifest.webmanifest" ∨
      resolveReqPath q = "/app.css") :
    strStartsWith q "/web/" = false ∧ (q == "/app.wasm" || q == "/goapp.wasm") = false := by
  by_cases h1 : q = "/goapp.js"
  · subst h1; decide
  by_cases h2 : q = "/manifest.json"
  · subst h2; decide
  have hq : resolveReqPath q = q := by
    simp [resolveReqPath, h1, h2]
  rw [hq] at h
  rcases h with h | h | h | h | h <;> subst h <;> decide

/-- C6 (amended): for every request whose If-None-Match header does not
match the handler's etag and whose resolved path has an entry in the pwa
resource lookup populated at startup, ServeHTTP serves that pre-rendered
item and consults neither the bounded pre-render cache, nor the
proxy-resource table, nor the page renderer. -/
theorem pwa_hit_served_directly (env : ServeEnv) (r : Request)
    (a b c d e : List Nat) (oc : Option LRUCache)
    (hpwa : env.pwa = (initPreRenderedResources a b c d e oc).1)
    (hetag : (r.ifNoneMatch == env.etag) = false)
    (res : PreRenderedItem)
    (hhit : pwaLookup env.pwa (resolveReqPath r.path) = some res) :
    ServeHTTP env r =
      ([Event.pwaGet (resolveReqPath r.path)], withBase env (servePreRenderedItem res)) := by
  have hmem := pwaLookup_some_mem a b c d e oc (resolveReqPath r.path) res (hpwa ▸ hhit)
  have hcond := resolved_pwa_path_conditions r.path hmem
  simp only [ServeHTTP, hetag, Bool.false_eq_true, if_false, hcond.1, Bool.and_false,
    hcond.2, hhit]

def envC6 : ServeEnv :=
  { etag := "\"v1\"",
    pwa := (initPreRenderedResources [1] [2] [3] [4] [5] none).1,
    cacheContent := fun _ => none,
    proxyTable := fun _ => none,
    fetchStatic := fun _ => none,
    renderRoute := fun _ => none,
    isServingStaticResources := false,
    fileServe := fun _ => { status := 200, headers := [], body := [] },
    appWASMPath := "/web/app.wasm" }

/-- C6 counterexample: a request for /app.js, a path the startup pwa lookup
holds, whose If-None-Match header matches the handler's etag, is answered
304 Not Modified without the pwa item being served (and without the lookup
being consulted at all), so the claim does not hold for every request whose
resolved path has an entry in the pwa lookup. -/
theorem pwa_hit_not_served_on_etag_match :
    pwaLookup envC6.pwa (resolveReqPath "/app.js") =
      some { path := "/app.js", contentType := "application/javascript",
             contentEncoding := "", body := [2] } ∧
    ServeHTTP envC6 { ifNoneMatch := "\"v1\"", path := "/app.js" } =
      ([], notModifiedResponse envC6) ∧
    (ServeHTTP envC6 { ifNoneMatch := "\"v1\"", path := "/app.js" }).2.status = 304 := by
  refine ⟨by decide, by decide, by decide⟩

/-- Witness for the amended C6 at a concrete environment and request (the
path /goapp.js resolving to the pwa entry at /app.js). -/
theorem pwa_hit_served_directly_wit :
    ServeHTTP envC6 { ifNoneMatch := "", path := "/goapp.js" } =
      ([Event.pwaGet (resolveReqPath "/goapp.js")],
        withBase envC6 (servePreRenderedItem
          { path := "/app.js", contentType := "application/javascript",
            contentEncoding := "", body := [2] })) :=
  pwa_hit_served_directly envC6 { ifNoneMatch := "", path := "/goapp.js" }
    [1] [2] [3] [4] [5] none rfl (by decide) _ (by decide)

/-- C7: serving a pre-rendered item writes status 200, its body bytes, a
Content-Length header of the body length (the item size being its body
length), a Content-Type header of the item content type, and a
Content-Encoding header exactly when the item content encoding is
non-empty. -/
theorem servePreRenderedItem_response (r : PreRenderedItem) :
    (servePreRenderedItem r).status = 200 ∧
    (servePreRenderedItem r).body = r.body ∧
    r.len = r.body.length ∧
    ("Content-Length", toString r.body.length) ∈ (servePreRenderedItem r).headers ∧
    ("Content-Type", r.contentType) ∈ (servePreRenderedItem r).headers ∧
    (r.contentEncoding ≠ "" →
      ("Content-Encoding", r.contentEncoding) ∈ (servePreRenderedItem r).headers) ∧
    (r.contentEncoding = "" →
      ∀ v, ("Content-Encoding", v) ∉ (servePreRenderedItem r).headers) := by
  refine ⟨rfl, rfl, rfl, ?_, ?_, ?_, ?_⟩
  · simp [servePreRenderedItem, PreRenderedItem.len]
  · simp [servePreRenderedItem]
  · intro h
    simp [servePreRenderedItem, h]
  · intro h v hmem
    simp [servePreRenderedItem, h] at hmem

/-- Witness for C7 at a concrete item with a non-empty content encoding. -/
theorem servePreRenderedItem_response_wit :
    (servePreRenderedItem ⟨"/x", "text/html", "gzip", [1, 2]⟩).status = 200 ∧
    (servePreRenderedItem ⟨"/x", "text/html", "gzip", [1, 2]⟩).body = [1, 2] ∧
    PreRenderedItem.len ⟨"/x", "text/html", "gzip", [1, 2]⟩ = ([1, 2] : List Nat).length ∧
    ("Content-Length", toString ([1, 2] : List Nat).length) ∈
      (servePreRenderedItem ⟨"/x", "text/html", "gzip", [1, 2]⟩).headers ∧
    ("Content-Type", "text/html") ∈
      (servePreRenderedItem ⟨"/x", "text/html", "gzip", [1, 2]⟩).headers ∧
    (("gzip" : String) ≠ "" →
      ("Content-Encoding", "gzip") ∈
        (servePreRenderedItem ⟨"/x", "text/html", "gzip", [1, 2]⟩).headers) ∧
    (("gzip" : String) = "" →
      ∀ v, ("Content-Encoding", v) ∉
        (servePreRenderedItem ⟨"/x", "text/html", "gzip", [1, 2]⟩).headers) :=
  servePreRenderedItem_response ⟨"/x", "text/html", "gzip", [1, 2]⟩

/-- C8: a request that reaches dispatch and misses the pwa lookup and the
bounded cache is served by first storing the freshly built item in the
pre-render cache with Set and then writing that same item's bytes directly,
with no further cache Get, both when it hits the proxy-resource table and
when it falls through to the page renderer (the consulted subsystems are
listed exhaustively and in order by the event trace). -/
theorem miss_sets_then_serves (env : ServeEnv) (r : Request)
    (hetag : (r.ifNoneMatch == env.etag) = false)
    (hweb : (env.isServingStaticResources && strStartsWith r.path "/web/") = false)
    (hwasm : (r.path == "/app.wasm" || r.path == "/goapp.wasm") = false)
    (hpwa : pwaLookup env.pwa (resolveReqPath r.path) = none)
    (hcache : env.cacheContent (resolveReqPath r.path) = none) :
    (∀ pr f, env.proxyTable (resolveReqPath r.path) = some pr →
        env.fetchStatic pr = some f →
        ServeHTTP env r =
          ([Event.pwaGet (resolveReqPath r.path), Event.cacheGet (resolveReqPath r.path),
            Event.proxyLookup (resolveReqPath r.path), Event.cacheSet (proxyItem pr f)],
            withBase env (servePreRenderedItem (proxyItem pr f)))) ∧
    (∀ b, env.proxyTable (resolveReqPath r.path) = none →
        env.renderRoute r.path = some b →
        ServeHTTP env r =
          ([Event.pwaGet (resolveReqPath r.path), Event.cacheGet (resolveReqPath r.path),
            Event.proxyLookup (resolveReqPath r.path), Event.renderPage r.path,
            Event.cacheSet { path := r.path, contentType := "text/html",
                             contentEncoding := "", body := b }],
            withBase env (servePreRenderedItem
              { path := r.path, contentType := "text/html",
                contentEncoding := "", body := b }))) := by
  constructor
  · intro pr f hpr hf
    simp only [ServeHTTP, hetag, Bool.false_eq_true, if_false, hweb, hwasm, hpwa, hcache,
      hpr, serveProxyResource, hf, List.cons_append, List.nil_append]
  · intro b hpr hb
    simp only [ServeHTTP, hetag, Bool.false_eq_true, if_false, hweb, hwasm, hpwa, hcache,
      hpr, servePage, hb, List.cons_append, List.nil_append]

def envC8 : ServeEnv :=
  { etag := "\"v1\"",
    pwa := (initPreRenderedResources [1] [2] [3] [4] [5] none).1,
    cacheContent := fun _ => none,
    proxyTable := fun _ => none,
    fetchStatic := fun _ => none,
    renderRoute := fun _ => some [9, 9],
    isServingStaticResources := false,
    fileServe := fun _ => { status := 200, headers := [], body := [] },
    appWASMPath := "/web/app.wasm" }

/-- Witness for C8 at a concrete environment whose page renderer routes the
requested path. -/
theorem miss_sets_then_serves_wit :
    ServeHTTP envC8 { ifNoneMatch := "", path := "/contact" } =
      ([Event.pwaGet (resolveReqPath "/contact"), Event.cacheGet (resolveReqPath "/contact"),
        Event.proxyLookup (resolveReqPath "/contact"), Event.renderPage "/contact",
        Event.cacheSet { path := "/contact", contentType := "text/html",
                         contentEncoding := "", body := [9, 9] }],
        withBase envC8 (servePreRenderedItem
          { path := "/contact", contentType := "text/html",
            contentEncoding := "", body := [9, 9] })) :=
  (miss_sets_then_serves envC8 { ifNoneMatch := "", path := "/contact" }
      (by decide) (by decide) (by decide) (by decide) rfl).2 [9, 9] rfl rfl

/-- C9: a request whose If-None-Match header equals the handler's etag, the
quoted version string, is answered 304 Not Modified with no body and with
no subsystem consulted, the response carrying the etag header. -/
theorem etag_match_not_modified (env : ServeEnv) (r : Request) (v : String)
    (hv : env.etag = "\"" ++ v ++ "\"")
    (h : r.ifNoneMatch = env.etag) :
    ServeHTTP env r = ([], notModifiedResponse env) ∧
    (notModifiedResponse env).status = 304 ∧
    (notModifiedResponse env).body = [] ∧
    (notModifiedResponse env).headers =
      [("Cache-Control", "no-cache"), ("ETag", "\"" ++ v ++ "\"")] := by
  refine ⟨?_, rfl, rfl, ?_⟩
  · simp [ServeHTTP, h]
  · simp [notModifiedResponse, withBase, baseHeaders, hv]

/-- Witness for C9 at a concrete environment and request. -/
theorem etag_match_not_modified_wit :
    ServeHTTP envC6 { ifNoneMatch := "\"v1\"", path := "/about" } =
      ([], notModifiedResponse envC6) ∧
    (notModifiedResponse envC6).status = 304 ∧
    (notModifiedResponse envC6).body = [] ∧
    (notModifiedResponse envC6).headers =
      [("Cache-Control", "no-cache"), ("ETag", "\"" ++ "v1" ++ "\"")] :=
  etag_match_not_modified envC6 { ifNoneMatch := "\"v1\"", path := "/about" } "v1" rfl rfl

theorem addProxy_cons_reserved (m : String → Option ProxyResource) (r : ProxyResource)
    (rest : List ProxyResource) (h : r.Path ∈ reservedPaths) :
    addProxyResources m (r :: rest) = addProxyResources m rest := by
  simp [addProxyResources, h]

theorem addProxy_cons_kept (m : String → Option ProxyResource) (r : ProxyResource)
    (rest : List ProxyResource) (h1 : r.Path ∉ reservedPaths)
    (h2 : (strStartsWith r.Path "/" && strStartsWith r.ResourcePath "/web/") = true) :
    addProxyResources m (r :: rest) = addProxyResources (insertProxy m r.Path r) rest := by
  simp [addProxyResources, h1, h2]

theorem addProxy_cons_skip (m : String → Option ProxyResource) (r : ProxyResource)
    (rest : List ProxyResource) (h1 : r.Path ∉ reservedPaths)
    (h2 : (strStartsWith r.Path "/" && strStartsWith r.ResourcePath "/web/") = false) :
    addProxyResources m (r :: rest) = addProxyResources m rest := by
  simp [addProxyResources, h1, h2]

theorem addProxyResources_reserved_none (prs : List ProxyResource) :
    ∀ m : String → Option ProxyResource, (∀ p ∈ reservedPaths, m p = none) →
      ∀ p ∈ reservedPaths, addProxyResources m prs p = none := by
  induction prs with
  | nil => intro m hm p hp; exact hm p hp
  | cons r rest ih =>
    intro m hm p hp
    by_cases h1 : r.Path ∈ reservedPaths
    · rw [addProxy_cons_reserved m r rest h1]
      exact ih m hm p hp
    · by_cases h2 : (strStartsWith r.Path "/" && strStartsWith r.ResourcePath "/web/") = true
      · rw [addProxy_cons_kept m r rest h1 h2]
        refine ih _ ?_ p hp
        intro q hq
        have hne : q ≠ r.Path := fun he => h1 (he ▸ hq)
        simp [insertProxy, hne, hm q hq]
      · rw [Bool.not_eq_true] at h2
        rw [addProxy_cons_skip m r rest h1 h2]
        exact ih m hm p hp

theorem addProxyResources_valid (prs : List ProxyResource) :
    ∀ m : String → Option ProxyResource,
      (∀ p v, m p = some v →
        strStartsWith v.Path "/" = true ∧ strStartsWith v.ResourcePath "/web/" = true) →
      ∀ p v, addProxyResources m prs p = some v →
        strStartsWith v.Path "/" = true ∧ strStartsWith v.ResourcePath "/web/" = true := by
  induction prs with
  | nil => intro m hm; exact hm
  | cons r rest ih =>
    intro m hm p v h
    by_cases h1 : r.Path ∈ reservedPaths
    · rw [addProxy_cons_reserved m r rest h1] at h
      exact ih m hm p v h
    · by_cases h2 : (strStartsWith r.Path "/" && strStartsWith r.ResourcePath "/web/") = true
      · rw [addProxy_cons_kept m r rest h1 h2] at h
        refine ih _ ?_ p v h
        intro q w hq
        by_cases hqk : q = r.Path
        · subst hqk
          simp only [insertProxy, if_pos rfl, Option.some.injEq] at hq
          rw [if_pos trivial, Option.some.injEq] at hq
          subst hq
          exact Bool.and_eq_true_iff.mp h2
        · simp only [insertProxy, if_neg hqk] at hq
          exact hm q w hq
      · rw [Bool.not_eq_true] at h2
        rw [addProxy_cons_skip m r rest h1 h2] at h
        exact ih m hm p v h

theorem addProxyResources_no_entry (prs : List ProxyResource) (k : String) :
    ∀ m : String → Option ProxyResource,
      (∀ r ∈ prs, ¬(r.Path = k ∧ strStartsWith r.Path "/" = true ∧
        strStartsWith r.ResourcePath "/web/" = true)) →
      addProxyResources m prs k = m k := by
  induction prs with
  | nil => intro m _; rfl
  | cons r rest ih =>
    intro m hno
    by_cases h1 : r.Path ∈ reservedPaths
    · rw [addProxy_cons_reserved m r rest h1]
      exact ih m (fun x hx => hno x (List.mem_cons_of_mem r hx))
    · by_cases h2 : (strStartsWith r.Path "/" && strStartsWith r.ResourcePath "/web/") = true
      · rw [addProxy_cons_kept m r rest h1 h2]
        rw [ih _ (fun x hx => hno x (List.mem_cons_of_mem r hx))]
        have hcond := Bool.and_eq_true_iff.mp h2
        have hne : r.Path ≠ k := by
          intro he
          exact hno r (List.mem_cons_self r rest) ⟨he, hcond.1, hcond.2⟩
        simp [insertProxy, Ne.symm hne]
      · rw [Bool.not_eq_true] at h2
        rw [addProxy_cons_skip m r rest h1 h2]
        exact ih m (fun x hx => hno x (List.mem_cons_of_mem r hx))

theorem withDefault_ne (t : String → Option ProxyResource) (k0 : String)
    (v0 : ProxyResource) (p : String) (hne : p ≠ k0) :
    withDefault t k0 v0 p = t p := by
  by_cases h : t k0 = none <;> simp [withDefault, h, insertProxy, hne]

theorem withDefault_hit (t : String → Option ProxyResource) (k0 : String)
    (v0 : ProxyResource) (h : t k0 = none) :
    withDefault t k0 v0 k0 = some v0 := by
  simp [withDefault, h, insertProxy]

theorem withDefault_valid (t : String → Option ProxyResource) (k0 : String)
    (v0 : ProxyResource)
    (hv0 : strStartsWith v0.Path "/" = true ∧ strStartsWith v0.ResourcePath "/web/" = true)
    (ht : ∀ p v, t p = some v →
      strStartsWith v.Path "/" = true ∧ strStartsWith v.ResourcePath "/web/" = true) :
    ∀ p v, withDefault t k0 v0 p = some v →
      strStartsWith v.Path "/" = true ∧ strStartsWith v.ResourcePath "/web/" = true := by
  intro p v h
  by_cases hc : t k0 = none
  · rw [withDefault, if_pos hc] at h
    by_cases hp : p = k0
    · subst hp
      simp only [insertProxy, if_pos rfl, Option.some.injEq] at h
      rw [if_pos trivial, Option.some.injEq] at h
      subst h
      exact hv0
    · simp only [insertProxy, if_neg hp] at h
      exact ht p v h
  · rw [withDefault, if_neg hc] at h
    exact ht p v h

/-- C10: after initialization the proxy-resource table has no entry at any
reserved path; every entry it holds has a path beginning with / and a
resource path beginning with /web/; and /robots.txt, /sitemap.xml and
/ads.txt are mapped to their /web/ defaults whenever the user supplied no
entry passing the filter for them. -/
theorem initProxyResources_spec (prs : List ProxyResource) :
    (∀ p ∈ reservedPaths, initProxyResources prs p = none) ∧
    (∀ p v, initProxyResources prs p = some v →
      strStartsWith v.Path "/" = true ∧ strStartsWith v.ResourcePath "/web/" = true) ∧
    ((∀ r ∈ prs, ¬(r.Path = "/robots.txt" ∧ strStartsWith r.Path "/" = true ∧
        strStartsWith r.ResourcePath "/web/" = true)) →
      initProxyResources prs "/robots.txt" = some ⟨"/robots.txt", "/web/robots.txt"⟩) ∧
    ((∀ r ∈ prs, ¬(r.Path = "/sitemap.xml" ∧ strStartsWith r.Path "/" = true ∧
        strStartsWith r.ResourcePath "/web/" = true)) →
      initProxyResources prs "/sitemap.xml" = some ⟨"/sitemap.xml", "/web/sitemap.xml"⟩) ∧
    ((∀ r ∈ prs, ¬(r.Path = "/ads.txt" ∧ strStartsWith r.Path "/" = true ∧
        strStartsWith r.ResourcePath "/web/" = true)) →
      initProxyResources prs "/ads.txt" = some ⟨"/ads.txt", "/web/ads.txt"⟩) := by
  have hempty : ∀ p ∈ reservedPaths, (fun _ : String => (none : Option ProxyResource)) p = none :=
    fun _ _ => rfl
  refine ⟨?_, ?_, ?_, ?_, ?_⟩
  · intro p hp
    have ht0 := addProxyResources_reserved_none prs _ hempty p hp
    have hne1 : p ≠ "/robots.txt" :=
      fun he => (by decide : ("/robots.txt" : String) ∉ reservedPaths) (he ▸ hp)
    have hne2 : p ≠ "/sitemap.xml" :=
      fun he => (by decide : ("/sitemap.xml" : String) ∉ reservedPaths) (he ▸ hp)
    have hne3 : p ≠ "/ads.txt" :=
      fun he => (by decide : ("/ads.txt" : String) ∉ reservedPaths) (he ▸ hp)
    unfold initProxyResources
    rw [withDefault_ne _ _ _ p hne3, withDefault_ne _ _ _ p hne2,
      withDefault_ne _ _ _ p hne1]
    exact ht0
  · have h0 := addProxyResources_valid prs (fun _ => none)
      (fun p v h => Option.noConfusion h)
    have h1 := withDefault_valid _ "/robots.txt" ⟨"/robots.txt", "/web/robots.txt"⟩
      (by decide) h0
    have h2 := withDefault_valid _ "/sitemap.xml" ⟨"/sitemap.xml", "/web/sitemap.xml"⟩
      (by decide) h1
    have h3 := withDefault_valid _ "/ads.txt" ⟨"/ads.txt", "/web/ads.txt"⟩
      (by decide) h2
    exact h3
  · intro hno
    have ht0 := addProxyResources_no_entry prs "/robots.txt" (fun _ => none) hno
    unfold initProxyResources
    rw [withDefault_ne _ _ _ _ (by decide : ("/robots.txt" : String) ≠ "/ads.txt"),
      withDefault_ne _ _ _ _ (by decide : ("/robots.txt" : String) ≠ "/sitemap.xml"),
      withDefault_hit _ _ _ ht0]
  · intro hno
    have ht0 := addProxyResources_no_entry prs "/sitemap.xml" (fun _ => none) hno
    unfold initProxyResources
    rw [withDefault_ne _ _ _ _ (by decide : ("/sitemap.xml" : String) ≠ "/ads.txt"),
      withDefault_hit _ _ _ (by
        rw [withDefault_ne _ _ _ _ (by decide : ("/sitemap.xml" : String) ≠ "/robots.txt")]
        exact ht0)]
  · intro hno
    have ht0 := addProxyResources_no_entry prs "/ads.txt" (fun _ => none) hno
    unfold initProxyResources
    rw [withDefault_hit _ _ _ (by
      rw [withDefault_ne _ _ _ _ (by decide : ("/ads.txt" : String) ≠ "/sitemap.xml"),
        withDefault_ne _ _ _ _ (by decide : ("/ads.txt" : String) ≠ "/robots.txt")]
      exact ht0)]

/-- Witness for C10 at a concrete list of user-supplied proxy resources, one
reserved, one valid, one with an invalid resource path. -/
theorem initProxyResources_spec_wit :
    initProxyResources
      [⟨"/app.js", "/web/app.js"⟩, ⟨"/foo", "/web/foo.txt"⟩, ⟨"/bar", "nope"⟩]
      "/app.js" = none ∧
    initProxyResources
      [⟨"/app.js", "/web/app.js"⟩, ⟨"/foo", "/web/foo.txt"⟩, ⟨"/bar", "nope"⟩]
      "/robots.txt" = some ⟨"/robots.txt", "/web/robots.txt"⟩ :=
  ⟨(initProxyResources_spec
      [⟨"/app.js", "/web/app.js"⟩, ⟨"/foo", "/web/foo.txt"⟩, ⟨"/bar", "nope"⟩]).1
      "/app.js" (by decide),
   (initProxyResources_spec
      [⟨"/app.js", "/web/app.js"⟩, ⟨"/foo", "/web/foo.txt"⟩, ⟨"/bar", "nope"⟩]).2.2.1
      (by decide)⟩
